import Mathlib

/-!
Verification of the PoseSandbox pose-editor core against its source.

The development shallowly embeds the JavaScript modules that the claims
concern:

* `core/world.js` — world/prop membership and scene attachment,
  `resetAllJointRotations`;
* `poses/pose-io.js` (the pose serialization module) — `serializePose`,
  `applyPose`, `applyPoseJointsOnly`, `importPosePack`;
* the gallery module — `loadFromStorage`, `saveCurrentPoseToGallery`;
* the modes controller — `setMode`, `toggleAxis`, `setSnapDeg`,
  `applyState`, the dragging-changed handler;
* the selection controller — the ancestor-climb of `pickFromPointer`.

Modelling conventions:

* A JavaScript number is `JNum := Option Rat`: `some q` is a finite value,
  `none` stands for NaN (the value produced by reading a missing array slot
  in `fromArray`).  No claim performs arithmetic on these values, only
  copies and comparisons, so this representation is exact.
* Scene-graph object identity is modelled by a numeric `uid`; the scene is
  the list of attached prop uids in child order.  `scene.add` detaches the
  object from its previous parent first (THREE semantics), `scene.remove`
  removes the child if present.
* External hooks with no modelled state (`updateOutline`,
  `forceRenderOnce`, DOM class toggles) are omitted; toast notifications
  and console warnings are collected into lists so that claims about them
  can be stated.
-/

namespace PoseSandbox

/-- A JavaScript number: `some q` is finite, `none` models NaN. -/
abbrev JNum := Option ℚ

/-- Quaternion storage in xyzw order, as THREE.Quaternion holds it. -/
structure Quat4 where
  x : JNum
  y : JNum
  z : JNum
  w : JNum
deriving DecidableEq, Repr

/-- Embeds `quaternion.toArray()`. -/
def Quat4.toArray (q : Quat4) : List JNum := [q.x, q.y, q.z, q.w]

/-- Embeds `quaternion.fromArray(l)`: reads four slots; a missing slot reads as NaN. -/
def Quat4.fromArray (l : List JNum) : Quat4 :=
  ⟨l.getD 0 none, l.getD 1 none, l.getD 2 none, l.getD 3 none⟩

/-- Embeds `quaternion.identity()`: x = y = z = 0, w = 1. -/
def Quat4.identity : Quat4 := ⟨some 0, some 0, some 0, some 1⟩

/-- Vector storage for position / scale. -/
structure Vec3 where
  x : JNum
  y : JNum
  z : JNum
deriving DecidableEq, Repr

/-- Embeds `vector.toArray()`. -/
def Vec3.toArray (v : Vec3) : List JNum := [v.x, v.y, v.z]

/-- Embeds `vector.fromArray(l)`. -/
def Vec3.fromArray (l : List JNum) : Vec3 :=
  ⟨l.getD 0 none, l.getD 1 none, l.getD 2 none⟩

/-- A value found in the `joints` mapping of a pose document: either a JSON
array of scalars or anything else (`Array.isArray` fails on it). -/
inductive JVal where
  | arr (l : List JNum)
  | other
deriving DecidableEq, Repr

/-- A JavaScript object used as a string-keyed map (the `joints` mapping).
Keys are unique; `jset` keeps them so. -/
abbrev JMap := List (String × JVal)

/-- Property read `m[k]`. -/
def jget (m : JMap) (k : String) : Option JVal :=
  (m.find? (fun p => p.1 == k)).map (·.2)

/-- Property write `m[k] = v`: overwrites an existing key in place, else
appends (JS object insertion order keeps the key at its first position). -/
def jset : JMap → String → JVal → JMap
  | [], k, v => [(k, v)]
  | p :: rest, k, v => if p.1 = k then (k, v) :: rest else p :: jset rest k v

/-- Embeds `s.toLowerCase()`, character by character. -/
def jsToLower (s : String) : String := ⟨s.data.map Char.toLower⟩

/-- Substring containment on character sequences (`String.includes`). -/
def containsSeq (pat : List Char) : List Char → Bool
  | [] => pat.isEmpty
  | c :: rest => List.isPrefixOf pat (c :: rest) || containsSeq pat rest

/-- JS whitespace for `trim` (the characters pose names can carry). -/
def jsWS (c : Char) : Bool := c == ' ' || c == '\t' || c == '\n' || c == '\r'

/-- Embeds `s.trim()`. -/
def jsTrim (s : String) : String :=
  ⟨((s.data.dropWhile jsWS).reverse.dropWhile jsWS).reverse⟩

/-- A joint group.  THREE keeps an Euler `rotation` synchronized with the
quaternion, so the quaternion alone carries the rotational state;
`resetAllJointRotations` zeroes both representations, which together amount
to setting the quaternion to identity. -/
structure Joint where
  name : String
  quaternion : Quat4
deriving DecidableEq, Repr

/-- A prop group (`userData.isProp` node added directly to the scene). -/
structure PropNode where
  uid : Nat
  name : String
  type : String
  position : Vec3
  quaternion : Quat4
  scale : Vec3
deriving DecidableEq, Repr

/-- The world record of `core/world.js`: joint list and prop list. -/
structure World where
  joints : List Joint
  props : List PropNode
deriving DecidableEq, Repr

/-- Scene children, as the list of attached prop uids in child order. -/
abbrev Scene := List Nat

/-- Embeds `scene.add(obj)`: THREE removes the object from its previous parent
(including the scene itself) and appends it as the last child. -/
def sceneAdd (s : Scene) (u : Nat) : Scene := (s.erase u) ++ [u]

/-- Embeds `scene.remove(obj)`: drops the child if attached, else no-op. -/
def sceneRemove (s : Scene) (u : Nat) : Scene := s.erase u

/-- Embeds `resetAllJointRotations(world)` from core/world.js lines 42-48: for every
joint, `rotation.set(0,0,0)` and `quaternion.identity()`; the combined effect
on the rotational state is the identity quaternion. -/
def resetAllJointRotations (w : World) : World :=
  { w with joints := w.joints.map (fun j => { j with quaternion := Quat4.identity }) }

/-! ## Selection picking (part_001, SelectionController.pickFromPointer) -/

/-- A scene node as the climb sees it: identity plus the two marker flags
`userData.isJoint` and `userData.isProp`. -/
structure SNode where
  uid : Nat
  isJoint : Bool
  isProp : Bool
deriving DecidableEq, Repr

/-- One raycast hit: the hit object and its ancestor chain, parent first. -/
structure Hit where
  obj : SNode
  ancestors : List SNode
deriving DecidableEq, Repr

/-- The while-loop of `pickFromPointer`: `o` is the current node, the list
holds its remaining ancestors (parent first).  When the parent carries the
joint marker the parent is returned; else when the current node carries the
prop marker it is returned; otherwise the climb moves up.  When the chain is
exhausted the original raw hit `orig` is returned. -/
def climb (orig : SNode) : SNode → List SNode → SNode
  | _, [] => orig
  | o, parent :: rest =>
    if parent.isJoint then parent
    else if o.isProp then o
    else climb orig parent rest

/-- Embeds `pickFromPointer` after intersection: no hits yields no selection;
otherwise the nearest hit is resolved by the ancestor climb. -/
def pickFromPointer (hits : List Hit) : Option SNode :=
  match hits with
  | [] => none
  | h :: _ => some (climb h.obj h.obj h.ancestors)

/-- Node at climb position `k` of a hit: position 0 is the hit object
itself, position `k+1` is ancestor `k`.  (The default is never reached at
the positions the claims inspect.) -/
def curAt (obj : SNode) (anc : List SNode) (k : Nat) : SNode :=
  (obj :: anc).getD k obj

/-- The stop condition of the climb at position `k`: the parent at that
position carries the joint marker, or the node at that position carries the
prop marker. -/
def matchAt (obj : SNode) (anc : List SNode) (k : Nat) : Bool :=
  match anc.get? k, (obj :: anc).get? k with
  | some parent, some cur => parent.isJoint || cur.isProp
  | _, _ => false

/-- Index of the first climb position whose stop condition holds. -/
def firstMatchIdx (obj : SNode) (anc : List SNode) : Option Nat :=
  (List.range anc.length).find? (fun k => matchAt obj anc k)

/-- The selection the claim describes for a nearest hit: at the first
matching position, the parent if it carries the joint marker, else the
current node; the raw hit object when no position matches. -/
def resolvedOf (h : Hit) : SNode :=
  match firstMatchIdx h.obj h.ancestors with
  | none => h.obj
  | some k =>
    if (h.ancestors.getD k h.obj).isJoint then h.ancestors.getD k h.obj
    else curAt h.obj h.ancestors k

/-! ## Pose documents (part_004, the pose-io module) -/

/-- One serialized prop entry.  Every field may be absent in a foreign
document; `serializePose` always produces all of them. -/
structure PropEntry where
  name : Option String
  position : Option (List JNum)
  quaternion : Option (List JNum)
  scale : Option (List JNum)
deriving DecidableEq, Repr

/-- A parsed pose document.  `joints` is `some m` when the document carries
an object-typed `joints` property, `props` is `some l` when it carries an
array-typed `props` property. -/
structure PoseDoc where
  version : Option ℚ
  notes : Option String
  joints : Option JMap
  props : Option (List PropEntry)
  savedAt : Option String
deriving DecidableEq, Repr

/-- The joints-object builder of `serializePose`: assignment in world
order, so a later joint with a duplicate name overwrites the earlier
entry. -/
def serializeJointsMap (js : List Joint) : JMap :=
  js.foldl (fun m j => jset m j.name (JVal.arr j.quaternion.toArray)) []

/-- The per-prop serializer of `serializePose`. -/
def serializePropEntry (p : PropNode) : PropEntry :=
  { name := some p.name
    position := some p.position.toArray
    quaternion := some p.quaternion.toArray
    scale := some p.scale.toArray }

/-- Embeds `serializePose` (part_004 lines 24-46).  `poseNotes` is the value of the
optional notes textarea (`none` when the element is absent), `now` stands
for `nowISO()`. -/
def serializePose (world : World) (poseNotes : Option String) (now : String) : PoseDoc :=
  { version := some 1
    notes := some (poseNotes.getD "")
    joints := some (serializeJointsMap world.joints)
    props := some (world.props.map serializePropEntry)
    savedAt := some now }

/-- The joints loop body of `applyPose` and `applyPoseJointsOnly`: a joint is
rewritten exactly when its name is bound to a length-4 array. -/
def applyJointEntry (m : JMap) (j : Joint) : Joint :=
  match jget m j.name with
  | some (JVal.arr q) =>
    if q.length = 4 then { j with quaternion := Quat4.fromArray q } else j
  | _ => j

/-- Whether a joint is counted as matched by the same loop. -/
def jointMatches (m : JMap) (j : Joint) : Bool :=
  match jget m j.name with
  | some (JVal.arr q) => q.length == 4
  | _ => false

/-- Embeds `String(x).toLowerCase().includes("cube")` on the serialized prop name. -/
def nameSaysCube (n : String) : Bool :=
  containsSeq "cube".data (jsToLower n).data

/-- Dependencies injected into `applyPose`.  `poseNotes` is the current
textarea value (`none` when the element is absent); `addProp` is the
injected spawn function (in app.js, `spawnProp`), given the current
`world.props.length` and the type tag and returning the freshly created and
registered group; flags record which optional callbacks are present. -/
structure ApplyDeps where
  poseNotes : Option String
  addProp : Option (Nat → String → PropNode)
  showToast : Bool
deriving Inhabited

/-- Result state of `applyPose`: the mutated world and scene, the notes
textarea value, and the toasts that fired. -/
structure ApplyResult where
  world : World
  scene : Scene
  poseNotes : Option String
  toasts : List String
deriving DecidableEq, Repr

/-- The per-entry body of the props rebuild loop: overwrite the freshly
spawned group from the document entry.  A present field (even an empty
array) is truthy and is copied; `name` is copied only when it is a
non-empty string. -/
def overwriteProp (pd : PropEntry) (p0 : PropNode) : PropNode :=
  let p1 := match pd.position with
    | some a => { p0 with position := Vec3.fromArray a }
    | none => p0
  let p2 := match pd.quaternion with
    | some a => { p1 with quaternion := Quat4.fromArray a }
    | none => p1
  let p3 := match pd.scale with
    | some a => { p2 with scale := Vec3.fromArray a }
    | none => p2
  match pd.name with
  | some n => if n ≠ "" then { p3 with name := n } else p3
  | none => p3

/-- One iteration of the props rebuild loop of `applyPose` over the running
world/scene pair: when `addProp` is missing, creation is skipped entirely;
otherwise a cube or sphere is spawned by the name heuristic and then
overwritten from the entry. -/
def rebuildPropStep (addProp : Option (Nat → String → PropNode))
    (ws : World × Scene) (pd : PropEntry) : World × Scene :=
  let isCube := nameSaysCube ((pd.name.getD ""))
  match addProp with
  | none => ws
  | some f =>
    let p0 := f ws.1.props.length (if isCube then "cube" else "sphere")
    let w := { ws.1 with props := ws.1.props ++ [overwriteProp pd p0] }
    let s := sceneAdd ws.2 p0.uid
    (w, s)

/-- The list of props the rebuild loop produces from entry index `i`
onward, when the spawn dependency is present. -/
def rebuiltProps (f : Nat → String → PropNode) (i : Nat) : List PropEntry → List PropNode
  | [] => []
  | pd :: rest =>
    overwriteProp pd (f i (if nameSaysCube (pd.name.getD "") then "cube" else "sphere")) ::
      rebuiltProps f (i + 1) rest

/-- Embeds `applyPose(data, deps)` (part_004 lines 50-108).  `data = none` models a
null or non-object argument.  The world and scene collaborators are
supplied, so the missing-world / missing-scene throws cannot fire here; the
invalid-data throw is kept. -/
def applyPose (data : Option PoseDoc) (world : World) (scene : Scene)
    (deps : ApplyDeps) : Except String ApplyResult :=
  match data with
  | none => .error "Invalid pose JSON"
  | some d =>
    let joints1 := match d.joints with
      | some m => world.joints.map (applyJointEntry m)
      | none => world.joints
    let w1 : World := { world with joints := joints1 }
    let ws2 : World × Scene := match d.props with
      | some entries =>
        let scene1 := w1.props.foldl (fun s p => sceneRemove s p.uid) scene
        let w1' : World := { w1 with props := [] }
        entries.foldl (rebuildPropStep deps.addProp) (w1', scene1)
      | none => (w1, scene)
    let notes' := match deps.poseNotes, d.notes with
      | some _, some s => some s
      | cur, _ => cur
    let toasts := if deps.showToast then ["Pose loaded"] else []
    .ok { world := ws2.1, scene := ws2.2, poseNotes := notes', toasts := toasts }

/-- Dependencies of `applyPoseJointsOnly`: whether the (optional)
`resetAllJointRotations` callback was injected — the app always wires the
core/world.js reset — and whether `showToast` is present. -/
structure JointsOnlyDeps where
  reset : Bool
  showToast : Bool
deriving DecidableEq, Repr

/-- Result of `applyPoseJointsOnly`: mutated world, matched-joint count,
toasts fired. -/
structure JointsOnlyResult where
  world : World
  appliedCount : Nat
  toasts : List String
deriving DecidableEq, Repr

/-- Embeds `applyPoseJointsOnly(data, deps)` (part_004 lines 110-144): fails on a
non-object or on a document without a joints map, resets all joint rotations
first when the reset callback is wired, then applies matching length-4
entries and counts them. -/
def applyPoseJointsOnly (data : Option PoseDoc) (world : World)
    (deps : JointsOnlyDeps) : Except String JointsOnlyResult :=
  match data with
  | none => .error "Invalid preset/pose object"
  | some d =>
    match d.joints with
    | none => .error "Pose missing joints"
    | some m =>
      let w0 := if deps.reset then resetAllJointRotations world else world
      let js := w0.joints.map (applyJointEntry m)
      let n := w0.joints.countP (fun j => jointMatches m j)
      let toasts :=
        if deps.showToast then
          if n = 0 then ["Preset loaded (no matching joints)"]
          else ["Preset loaded (" ++ toString n ++ " joints)"]
        else []
      .ok { world := { w0 with joints := js }, appliedCount := n, toasts := toasts }

/-! ## Import pack (part_004, importPosePack) -/

/-- A file handed to `importPosePack`: its name and the outcome of
`JSON.parse(await file.text())` — `none` models a read or parse failure
(the thrown exception), `some v` the parsed value, itself `none` when the
parsed JSON is not a usable pose object. -/
structure PoseFile where
  name : String
  parsed : Option (Option PoseDoc)
deriving DecidableEq, Inhabited

/-- Embeds `file.name.toLowerCase().endsWith(".json")`. -/
def endsWithJson (name : String) : Bool :=
  List.isSuffixOf ".json".data (jsToLower name).data

/-- Embeds `file.name.replace(/\.json$/i, "")`: strips one trailing `.json`
case-insensitively. -/
def stripJsonExt (name : String) : String :=
  if endsWithJson name then ⟨name.data.take (name.data.length - 5)⟩ else name

/-- Dependencies of `importPosePack`: the injected apply and gallery-save
callbacks (either may be absent, and either may throw — a throw is caught
per file), plus presence flags for the render and toast hooks. -/
structure ImportDeps where
  applyPoseFn : Option (Option PoseDoc → Except String Unit)
  saveToGallery : Option (String → Except String Unit)
  showToast : Bool

/-- Result of `importPosePack`: the returned value (`none` models the bare
`return` on an empty file list, i.e. `undefined`), the toasts fired, and
the per-file console warnings. -/
structure ImportResult where
  returned : Option Nat
  toasts : List String
  warnings : List String
deriving DecidableEq, Repr

/-- One loop iteration of `importPosePack`: skip non-JSON names; inside the
try block parse, apply, save; any failure logs a warning and moves on. -/
def importFileStep (deps : ImportDeps) (acc : Nat × List String)
    (f : PoseFile) : Nat × List String :=
  if ¬ endsWithJson f.name then acc
  else
    match f.parsed with
    | none => (acc.1, acc.2 ++ ["Failed to import pose: " ++ f.name])
    | some data =>
      let applyRes : Except String Unit := match deps.applyPoseFn with
        | some g => g data
        | none => .ok ()
      match applyRes with
      | .error _ => (acc.1, acc.2 ++ ["Failed to import pose: " ++ f.name])
      | .ok _ =>
        let saveRes : Except String Unit := match deps.saveToGallery with
          | some g => g (stripJsonExt f.name)
          | none => .ok ()
        match saveRes with
        | .error _ => (acc.1, acc.2 ++ ["Failed to import pose: " ++ f.name])
        | .ok _ => (acc.1 + 1, acc.2)

/-- Whether a file makes it through its entire try block. -/
def fileImports (deps : ImportDeps) (f : PoseFile) : Bool :=
  endsWithJson f.name &&
    match f.parsed with
    | none => false
    | some data =>
      (match deps.applyPoseFn with
        | some g => (g data).toBool
        | none => true) &&
      (match deps.saveToGallery with
        | some g => (g (stripJsonExt f.name)).toBool
        | none => true)

/-- Embeds `importPosePack(files, deps)` (part_004 lines 155-192): bare return on
an empty list, otherwise a best-effort loop followed by exactly one summary
toast. -/
def importPosePack (files : List PoseFile) (deps : ImportDeps) : ImportResult :=
  if files.length = 0 then { returned := none, toasts := [], warnings := [] }
  else
    let r := files.foldl (importFileStep deps) (0, [])
    let toasts :=
      if deps.showToast then
        if r.1 > 0 then
          ["Imported " ++ toString r.1 ++ " pose" ++ (if r.1 > 1 then "s" else "")]
        else ["No valid poses imported"]
      else []
    { returned := some r.1, toasts := toasts, warnings := r.2 }

/-! ## World prop membership (core/world.js lines 225-269) -/

/-- World-prop membership and scene attachment, tracked by uid. -/
structure PropsState where
  props : List Nat
  scene : Scene
deriving DecidableEq, Repr

/-- One call of the prop lifecycle API.  `register u` is
`registerProp(world, scene, u)`; `add u` is `addProp`, which creates a
fresh group (`createPropGroup`) and registers it; `remove u` is
`removeProp`; `clear` is `clearProps`. -/
inductive PropOp where
  | register (u : Nat)
  | add (u : Nat)
  | remove (u : Nat)
  | clear
deriving DecidableEq, Repr

/-- State transition of the four prop lifecycle calls, with the scene
collaborator present.  `registerProp` pushes and attaches; `removeProp`
splices the found index out of `world.props` and detaches; `clearProps`
detaches every member and empties the array. -/
def propStep (st : PropsState) : PropOp → PropsState
  | .register u => ⟨st.props ++ [u], sceneAdd st.scene u⟩
  | .add u => ⟨st.props ++ [u], sceneAdd st.scene u⟩
  | .remove u =>
    ⟨if u ∈ st.props then st.props.erase u else st.props, sceneRemove st.scene u⟩
  | .clear => ⟨[], st.props.foldl (fun s u => sceneRemove s u) st.scene⟩

/-- Run a call sequence from a state. -/
def runPropOps (st : PropsState) (ops : List PropOp) : PropsState :=
  ops.foldl propStep st

/-- Freshness of a call trace: every registered or added group is a new
object, not currently a member (which is how `addProp` always behaves,
since `createPropGroup` returns a fresh group). -/
def freshRun (st : PropsState) : List PropOp → Bool
  | [] => true
  | op :: rest =>
    (match op with
      | .register u => !(decide (u ∈ st.props))
      | .add u => !(decide (u ∈ st.props))
      | _ => true) && freshRun (propStep st op) rest

/-! ## ModesController (part_001 lines 320-450) -/

/-- The three interaction modes. -/
inductive Mode where
  | rotate
  | move
  | orbit
deriving DecidableEq, Repr

/-- The gizmo sub-mode passed to `gizmo.setMode`. -/
inductive GizmoMode where
  | translate
  | rot
deriving DecidableEq, Repr

/-- An angle value handed to `setRotationSnap`, represented exactly as a
rational multiple of pi/180 radians. -/
structure Angle where
  per180 : ℚ
deriving DecidableEq, Repr

/-- Embeds `_degToRad(d) = d * PI / 180`, in the exact representation above. -/
def degToRad (d : ℚ) : Angle := ⟨d⟩

/-- The externally visible TransformControls state the controller drives. -/
structure GizmoState where
  enabled : Bool
  mode : GizmoMode
  showX : Bool
  showY : Bool
  showZ : Bool
  rotationSnap : Option Angle
deriving DecidableEq, Repr

/-- ModesController state plus the collaborator state it drives.
`dragging` mirrors the gizmo drag flag delivered by `dragging-changed`. -/
structure MCState where
  mode : Mode
  axisX : Bool
  axisY : Bool
  axisZ : Bool
  snapDeg : ℚ
  dragging : Bool
  gizmo : GizmoState
  orbitEnabled : Bool
deriving DecidableEq, Repr

/-- Embeds `applyState()`: gizmo enabled iff mode is not orbit, sub-mode translate
exactly in move mode, per-axis visibility mirrors the axis booleans,
rotation snap set only in rotate mode with positive snap, orbit enabled iff
mode is orbit.  (UI class toggling has no modelled state.) -/
def applyState (st : MCState) : MCState :=
  let orbOn := st.mode = Mode.orbit
  { st with
    gizmo :=
      { enabled := !orbOn
        mode := if st.mode = Mode.move then GizmoMode.translate else GizmoMode.rot
        showX := st.axisX
        showY := st.axisY
        showZ := st.axisZ
        rotationSnap :=
          if st.mode = Mode.rotate ∧ st.snapDeg > 0 then some (degToRad st.snapDeg)
          else none }
    orbitEnabled := orbOn }

/-- The events that drive the controller: `setMode` with a raw string,
`toggleAxis` with a raw key, `setSnapDeg` with a coerced number (`none`
models a non-finite coercion result), and the gizmo dragging-changed
callback. -/
inductive MEvent where
  | setMode (s : String)
  | toggleAxis (s : String)
  | setSnap (v : Option ℚ)
  | dragChanged (b : Bool)
deriving DecidableEq, Repr

/-- One controller transition.  `setMode` ignores values outside the three
valid modes; `toggleAxis` ignores keys other than x, y, z; `setSnapDeg`
stores the number, or 0 when it is non-finite, and always re-applies; the
dragging-changed handler sets orbit enabled to "not dragging and in orbit
mode" without a full re-apply. -/
def mcStep (st : MCState) : MEvent → MCState
  | .setMode s =>
    if s = "rotate" then applyState { st with mode := Mode.rotate }
    else if s = "move" then applyState { st with mode := Mode.move }
    else if s = "orbit" then applyState { st with mode := Mode.orbit }
    else st
  | .toggleAxis s =>
    if s = "x" then applyState { st with axisX := !st.axisX }
    else if s = "y" then applyState { st with axisY := !st.axisY }
    else if s = "z" then applyState { st with axisZ := !st.axisZ }
    else st
  | .setSnap v =>
    applyState { st with snapDeg := match v with | some n => n | none => 0 }
  | .dragChanged b =>
    { st with
      dragging := b
      orbitEnabled := !b && decide (st.mode = Mode.orbit) }

/-- The constructor state: rotate mode, all axes on, snap 10, no drag, then
one `applyState()`. -/
def mcInit : MCState :=
  applyState
    { mode := Mode.rotate
      axisX := true
      axisY := true
      axisZ := true
      snapDeg := 10
      dragging := false
      gizmo :=
        { enabled := false
          mode := GizmoMode.rot
          showX := false
          showY := false
          showZ := false
          rotationSnap := none }
      orbitEnabled := false }

/-- Run an event sequence from the constructor state. -/
def mcRun (evs : List MEvent) : MCState :=
  evs.foldl mcStep mcInit

/-- The gizmo-facing part of the claimed invariant. -/
def gizmoInv (st : MCState) : Prop :=
  st.gizmo.enabled = !(decide (st.mode = Mode.orbit)) ∧
  st.gizmo.mode = (if st.mode = Mode.move then GizmoMode.translate else GizmoMode.rot) ∧
  st.gizmo.showX = st.axisX ∧
  st.gizmo.showY = st.axisY ∧
  st.gizmo.showZ = st.axisZ ∧
  st.gizmo.rotationSnap =
    (if st.mode = Mode.rotate ∧ st.snapDeg > 0 then some (degToRad st.snapDeg) else none)

/-- The orbit-facing invariant the code actually maintains: orbit can only
be enabled in orbit mode, and outside a drag it is enabled exactly in orbit
mode. -/
def orbitInv (st : MCState) : Prop :=
  (st.orbitEnabled = true → st.mode = Mode.orbit) ∧
  (st.dragging = false → st.orbitEnabled = decide (st.mode = Mode.orbit))

/-! ## Gallery (pose-io.js gallery module) -/

/-- A gallery item as stored: every field may be missing or falsy in a
foreign storage blob; items created by `saveCurrentPoseToGallery` have all
fields present.  `createdAt` is a model timestamp (monotonic clock). -/
structure RawItem where
  id : Option String
  name : Option String
  createdAt : Option Nat
  notes : Option String
  pose : Option PoseDoc
  thumb : Option String
deriving DecidableEq, Repr

/-- The load-time validity filter:
`it && typeof it === "object" && it.id && it.pose && it.thumb` (truthy
string id and thumb, present pose). -/
def rawTruthy (it : RawItem) : Bool :=
  (match it.id with | some s => s ≠ "" | none => false) &&
  it.pose.isSome &&
  (match it.thumb with | some s => s ≠ "" | none => false)

/-- The gallery capacity: `maxItems`, 30 by default and as wired in app.js. -/
def galleryMax : Nat := 30

/-- Embeds `loadFromStorage` applied to a parsed storage array (`none` elements
model null or non-object entries): filter to valid-ish items, truncate to
capacity. -/
def loadItems (raw : List (Option RawItem)) : List RawItem :=
  ((raw.filterMap id).filter rawTruthy).take galleryMax

/-- Gallery construction options that stay fixed over a run: whether the
`serializePose` and `captureThumbnail` collaborators were wired, what the
serializer currently returns, and the notes textarea value. -/
structure GalleryCfg where
  hasSerialize : Bool
  hasCapture : Bool
  currentPose : PoseDoc
  notes : Option String

/-- Gallery state: the in-memory item list, the selection, the persisted
storage blob (parsed), and a monotonic clock supplying `Date.now()` /
`new Date()` timestamps. -/
structure GalleryState where
  items : List RawItem
  selectedId : Option String
  storage : List (Option RawItem)
  clock : Nat

/-- One gallery call in a run: a save attempt (with the chosen name, the
outcome of `captureThumbnail` — an empty string is falsy and aborts — and
whether `localStorage.setItem` succeeds), or a `loadFromStorage`. -/
inductive GalleryOp where
  | save (name : String) (thumb : String) (storeOk : Bool)
  | load

/-- Embeds `ensureSelectionValid()`. -/
def ensureSelectionValid (st : GalleryState) : GalleryState :=
  match st.selectedId with
  | none => st
  | some sel =>
    if st.items.any (fun it => it.id == some sel) then st
    else { st with selectedId := none }

/-- Embeds saveCurrentPoseToGallery (gallery module lines 140-175):
abort with a toast when a collaborator is missing or the thumbnail is
falsy; otherwise unshift a fully populated item, truncate to capacity,
select it, persist best-effort, and advance the clock. -/
def gallerySave (cfg : GalleryCfg) (st : GalleryState) (name : String)
    (thumb : String) (storeOk : Bool) : GalleryState :=
  if ¬ cfg.hasSerialize then st
  else if ¬ cfg.hasCapture then st
  else if thumb = "" then st
  else
    let item : RawItem :=
      { id := some ("id_" ++ toString st.clock)
        name := some (if jsTrim name ≠ "" then jsTrim name
          else "Pose " ++ toString (st.items.length + 1))
        createdAt := some st.clock
        notes := some (cfg.notes.getD "")
        pose := some cfg.currentPose
        thumb := some thumb }
    let items' := (item :: st.items).take galleryMax
    { items := items'
      selectedId := some ("id_" ++ toString st.clock)
      storage := if storeOk then items'.map some else st.storage
      clock := st.clock + 1 }

/-- Embeds `loadFromStorage()`: replace the item list by the filtered, truncated
storage content and re-validate the selection. -/
def galleryLoad (st : GalleryState) : GalleryState :=
  ensureSelectionValid { st with items := loadItems st.storage }

/-- One gallery transition. -/
def galleryStep (cfg : GalleryCfg) (st : GalleryState) : GalleryOp → GalleryState
  | .save name thumb storeOk => gallerySave cfg st name thumb storeOk
  | .load => galleryLoad st

/-- The initial state: empty gallery, empty storage, clock at 1. -/
def galleryInit : GalleryState :=
  { items := [], selectedId := none, storage := [], clock := 1 }

/-- Run a gallery call sequence. -/
def galleryRun (cfg : GalleryCfg) (ops : List GalleryOp) : GalleryState :=
  ops.foldl (galleryStep cfg) galleryInit

/-- Newest-first order on stored items by creation time. -/
def newestFirst (items : List RawItem) : Prop :=
  items.Pairwise (fun a b => a.createdAt.getD 0 ≥ b.createdAt.getD 0)

/-! ## Theorems -/

theorem find?_map_eq {α β : Type} (f : α → β) (p : β → Bool) (l : List α) :
    (l.map f).find? p = (l.find? (fun a => p (f a))).map f := by
  induction l with
  | nil => rfl
  | cons a l ih =>
    by_cases h : p (f a)
    · simp [List.find?_cons_of_pos, h]
    · simpa [List.find?_cons_of_neg, h] using ih

theorem climb_eq (orig : SNode) : ∀ (anc : List SNode) (obj : SNode),
    climb orig obj anc =
      (match (List.range anc.length).find? (fun k => matchAt obj anc k) with
       | none => orig
       | some k =>
         if (anc.getD k orig).isJoint then anc.getD k orig
         else curAt obj anc k) := by
  intro anc
  induction anc with
  | nil => intro obj; rfl
  | cons p rest ih =>
    intro obj
    rw [List.length_cons, List.range_succ_eq_map]
    have hm0 : matchAt obj (p :: rest) 0 = (p.isJoint || obj.isProp) := rfl
    by_cases hj : p.isJoint = true
    · have hpos : matchAt obj (p :: rest) 0 = true := by simp [hm0, hj]
      rw [List.find?_cons_of_pos _ hpos]
      simp [climb, hj, List.getD]
    · by_cases hp : obj.isProp = true
      · have hpos : matchAt obj (p :: rest) 0 = true := by simp [hm0, hp]
        rw [List.find?_cons_of_pos _ hpos]
        simp [climb, hj, hp, List.getD, curAt]
      · have hneg : matchAt obj (p :: rest) 0 = false := by simp [hm0, hj, hp]
        rw [List.find?_cons_of_neg _ (by simp [hneg])]
        have hshift : (fun k => matchAt obj (p :: rest) (Nat.succ k)) =
            (fun k => matchAt p rest k) := rfl
        rw [find?_map_eq Nat.succ (fun k => matchAt obj (p :: rest) k) (List.range rest.length)]
        rw [hshift]
        have hclimb : climb orig obj (p :: rest) = climb orig p rest := by
          simp [climb, hj, hp]
        rw [hclimb, ih p]
        cases hfind : (List.range rest.length).find? (fun k => matchAt p rest k) with
        | none => rfl
        | some k =>
          have hk : k < rest.length := by
            have := List.mem_range.mp (List.mem_of_find?_eq_some hfind)
            exact this
          have hk2 : k < (p :: rest).length := Nat.lt_succ_of_lt hk
          have hget : (p :: rest).get? k = some ((p :: rest).get ⟨k, hk2⟩) :=
            List.get?_eq_get hk2
          have hgd : (p :: rest).getD (Nat.succ k) orig = rest.getD k orig := rfl
          have hcur : curAt obj (p :: rest) (Nat.succ k) = curAt p rest k := by
            show ((p :: rest).get? k).getD obj = ((p :: rest).get? k).getD p
            rw [hget]
            rfl
          simp only [Option.map_some', hgd, hcur]

/-- C4: a pick with no hits yields no selection; a pick with hits resolves
the nearest hit by climbing the ancestor chain, selecting at the first
position whose parent carries the joint marker (the parent group) or whose
node carries the prop marker (that node), and returning the raw hit object
when the climb exhausts without a match. -/
theorem pick_resolution :
    pickFromPointer [] = none ∧
    ∀ (h : Hit) (rest : List Hit), pickFromPointer (h :: rest) = some (resolvedOf h) := by
  refine ⟨rfl, fun h rest => ?_⟩
  show some (climb h.obj h.obj h.ancestors) = some (resolvedOf h)
  rw [climb_eq]
  rfl

theorem gizmoInv_applyState (st : MCState) : gizmoInv (applyState st) := by
  unfold gizmoInv applyState
  refine ⟨rfl, rfl, rfl, rfl, rfl, rfl⟩

theorem orbitInv_applyState (st : MCState) : orbitInv (applyState st) := by
  unfold orbitInv applyState
  constructor
  · intro h
    exact of_decide_eq_true h
  · intro _
    rfl

theorem mcInv_step (st : MCState) (e : MEvent)
    (h : gizmoInv st ∧ orbitInv st) :
    gizmoInv (mcStep st e) ∧ orbitInv (mcStep st e) := by
  cases e with
  | setMode s =>
    unfold mcStep
    by_cases h1 : s = "rotate"
    · simp only [h1, if_pos rfl]
      exact ⟨gizmoInv_applyState _, orbitInv_applyState _⟩
    · by_cases h2 : s = "move"
      · simp only [h1, h2, if_neg, if_pos rfl, reduceIte]
        exact ⟨gizmoInv_applyState _, orbitInv_applyState _⟩
      · by_cases h3 : s = "orbit"
        · simp only [h1, h2, h3, reduceIte]
          exact ⟨gizmoInv_applyState _, orbitInv_applyState _⟩
        · simp only [h1, h2, h3, reduceIte]
          exact h
  | toggleAxis s =>
    unfold mcStep
    by_cases h1 : s = "x"
    · simp only [h1, reduceIte]
      exact ⟨gizmoInv_applyState _, orbitInv_applyState _⟩
    · by_cases h2 : s = "y"
      · simp only [h1, h2, reduceIte]
        exact ⟨gizmoInv_applyState _, orbitInv_applyState _⟩
      · by_cases h3 : s = "z"
        · simp only [h1, h2, h3, reduceIte]
          exact ⟨gizmoInv_applyState _, orbitInv_applyState _⟩
        · simp only [h1, h2, h3, reduceIte]
          exact h
  | setSnap v =>
    exact ⟨gizmoInv_applyState _, orbitInv_applyState _⟩
  | dragChanged b =>
    obtain ⟨hg, _⟩ := h
    constructor
    · exact hg
    · constructor
      · intro he
        have : (!b && decide (st.mode = Mode.orbit)) = true := he
        exact of_decide_eq_true (Bool.and_elim_right this)
      · intro hd
        have hb : b = false := hd
        subst hb
        simp [mcStep]

theorem mcInv_run (evs : List MEvent) :
    gizmoInv (mcRun evs) ∧ orbitInv (mcRun evs) := by
  have base : gizmoInv mcInit ∧ orbitInv mcInit :=
    ⟨gizmoInv_applyState _, orbitInv_applyState _⟩
  unfold mcRun
  generalize mcInit = st at base ⊢
  induction evs generalizing st with
  | nil => exact base
  | cons e rest ih =>
    exact ih (mcStep st e) (mcInv_step st e base)

/-- C5 counterexample: a setMode transition during an active gizmo drag
re-enables the orbit camera even though the drag is still in progress,
contradicting "orbit enabled iff mode is orbit and no gizmo drag is in
progress" after a setMode transition. -/
theorem modes_orbit_drag_counterexample :
    (mcRun [MEvent.dragChanged true, MEvent.setMode "orbit"]).mode = Mode.orbit ∧
    (mcRun [MEvent.dragChanged true, MEvent.setMode "orbit"]).dragging = true ∧
    (mcRun [MEvent.dragChanged true, MEvent.setMode "orbit"]).orbitEnabled = true := by
  decide

/-- C5 (amended): after every transition the gizmo is enabled iff the mode
is not orbit with sub-mode translate exactly in move mode, per-axis
visibility mirrors the axis flags, rotation snapping is set to the snap
angle in radians iff the mode is rotate and the snap angle is positive,
the orbit camera is enabled only if the mode is orbit and — whenever no
gizmo drag is in progress — exactly when the mode is orbit (a
setMode/toggleAxis/setSnapDeg transition during an active drag may leave
it enabled); setMode with a value outside rotate/move/orbit changes
nothing. -/
theorem modes_state_machine_invariant (evs : List MEvent) :
    gizmoInv (mcRun evs) ∧ orbitInv (mcRun evs) ∧
    (∀ (st : MCState) (s : String),
      s ≠ "rotate" → s ≠ "move" → s ≠ "orbit" → mcStep st (MEvent.setMode s) = st) := by
  refine ⟨(mcInv_run evs).1, (mcInv_run evs).2, fun st s h1 h2 h3 => ?_⟩
  simp [mcStep, h1, h2, h3]

/-- Witness for the C5 theorem at a concrete event list and a concrete
invalid setMode argument. -/
theorem modes_state_machine_invariant_witness :
    gizmoInv (mcRun [MEvent.setMode "move", MEvent.toggleAxis "x"]) ∧
    mcStep mcInit (MEvent.setMode "fly") = mcInit := by
  refine ⟨(modes_state_machine_invariant [MEvent.setMode "move", MEvent.toggleAxis "x"]).1, ?_⟩
  exact (modes_state_machine_invariant []).2.2 mcInit "fly"
    (by decide) (by decide) (by decide)

/-- C6 counterexample: with the snap angle previously 10, a non-finite
setSnapDeg input sets it to 0 instead of retaining the previous value. -/
theorem setSnapDeg_counterexample :
    mcInit.snapDeg = 10 ∧ (mcStep mcInit (MEvent.setSnap none)).snapDeg = 0 := by
  decide

/-- C6 (amended): setSnapDeg coerces its input to a number; a finite value
is stored, a non-finite value stores 0 (the previous snap angle is not
retained), and in all cases the gizmo/orbit state is re-applied
afterwards. -/
theorem setSnapDeg_behavior (st : MCState) (v : Option ℚ) :
    (mcStep st (MEvent.setSnap v)).snapDeg = (match v with | some n => n | none => 0) ∧
    gizmoInv (mcStep st (MEvent.setSnap v)) ∧
    (mcStep st (MEvent.setSnap v)).orbitEnabled =
      decide ((mcStep st (MEvent.setSnap v)).mode = Mode.orbit) := by
  refine ⟨rfl, gizmoInv_applyState _, rfl⟩

theorem count_foldl_erase {u : Nat} : ∀ (l : List Nat) (s : List Nat),
    (l.foldl (fun t a => t.erase a) s).count u = s.count u - l.count u := by
  intro l
  induction l with
  | nil => intro s; simp
  | cons a l ih =>
    intro s
    rw [List.foldl_cons, ih, List.count_cons, List.count_erase]
    by_cases h : a = u
    · subst h
      simp [Nat.sub_sub, Nat.add_comm]
    · have h2 : ¬ (u == a) = true := by simpa using fun hh => h hh.symm
      simp [h, h2]

theorem foldl_erase_self (l : List Nat) : l.foldl (fun t a => t.erase a) l = [] := by
  have h : ∀ u : Nat, (l.foldl (fun t a => t.erase a) l).count u = 0 := by
    intro u
    rw [count_foldl_erase]
    exact Nat.sub_self _
  apply List.eq_nil_iff_forall_not_mem.mpr
  intro u hu
  have := List.count_pos_iff.mpr hu
  rw [h u] at this
  exact Nat.lt_irrefl 0 this

theorem propStep_lockstep (st : PropsState) (op : PropOp)
    (heq : st.props = st.scene)
    (hop : (match op with
      | .register u => !(decide (u ∈ st.props))
      | .add u => !(decide (u ∈ st.props))
      | _ => true) = true) :
    (propStep st op).props = (propStep st op).scene := by
  cases op with
  | register u =>
    have hu : u ∉ st.props := by simpa using hop
    show st.props ++ [u] = (st.scene.erase u) ++ [u]
    rw [← heq, List.erase_of_not_mem hu]
  | add u =>
    have hu : u ∉ st.props := by simpa using hop
    show st.props ++ [u] = (st.scene.erase u) ++ [u]
    rw [← heq, List.erase_of_not_mem hu]
  | remove u =>
    show (if u ∈ st.props then st.props.erase u else st.props) = st.scene.erase u
    rw [← heq]
    by_cases h : u ∈ st.props
    · simp [h]
    · simp [h, List.erase_of_not_mem h]
  | clear =>
    show ([] : List Nat) = st.props.foldl (fun s u => sceneRemove s u) st.scene
    rw [← heq]
    exact (foldl_erase_self st.props).symm

theorem runPropOps_lockstep : ∀ (ops : List PropOp) (st : PropsState),
    st.props = st.scene → freshRun st ops = true →
    (runPropOps st ops).props = (runPropOps st ops).scene := by
  intro ops
  induction ops with
  | nil => intro st heq _; exact heq
  | cons op rest ih =>
    intro st heq hf
    have hsplit := Bool.and_eq_true_iff.mp hf
    exact ih (propStep st op) (propStep_lockstep st op heq hsplit.1) hsplit.2

/-- C8 counterexample: registering the same prop group twice (allowed by
the exported `registerProp`) leaves two membership entries but a single
scene attachment, so the claimed lockstep fails for that call sequence. -/
theorem prop_lockstep_counterexample :
    (runPropOps ⟨[], []⟩ [PropOp.register 0, PropOp.register 0]).props.length = 2 ∧
    (runPropOps ⟨[], []⟩ [PropOp.register 0, PropOp.register 0]).scene.length = 1 := by
  decide

/-- C8 (amended): for every sequence of registerProp/addProp/removeProp/
clearProps calls in which each registered group is fresh — not currently a
member, which is how addProp always behaves since createPropGroup returns
a new group — membership and scene attachment stay in lockstep: the same
count and the same members. -/
theorem prop_lockstep_fresh (ops : List PropOp)
    (hf : freshRun ⟨[], []⟩ ops = true) :
    (runPropOps ⟨[], []⟩ ops).props.length = (runPropOps ⟨[], []⟩ ops).scene.length ∧
    ∀ u : Nat, u ∈ (runPropOps ⟨[], []⟩ ops).props ↔ u ∈ (runPropOps ⟨[], []⟩ ops).scene := by
  have h := runPropOps_lockstep ops ⟨[], []⟩ rfl hf
  rw [h]
  exact ⟨rfl, fun _ => Iff.rfl⟩

/-- Witness for the C8 theorem at a concrete fresh call sequence. -/
theorem prop_lockstep_fresh_witness :
    freshRun ⟨[], []⟩ [PropOp.add 0, PropOp.add 1, PropOp.remove 0, PropOp.clear,
      PropOp.register 5] = true ∧
    (runPropOps ⟨[], []⟩ [PropOp.add 0, PropOp.add 1, PropOp.remove 0, PropOp.clear,
      PropOp.register 5]).props.length =
      (runPropOps ⟨[], []⟩ [PropOp.add 0, PropOp.add 1, PropOp.remove 0, PropOp.clear,
        PropOp.register 5]).scene.length :=
  ⟨by decide,
    (prop_lockstep_fresh [PropOp.add 0, PropOp.add 1, PropOp.remove 0, PropOp.clear,
      PropOp.register 5] (by decide)).1⟩

theorem importFileStep_fst (deps : ImportDeps) (acc : Nat × List String) (f : PoseFile) :
    (importFileStep deps acc f).1 = acc.1 + (if fileImports deps f then 1 else 0) := by
  unfold importFileStep fileImports
  by_cases hj : endsWithJson f.name
  · simp only [hj, Bool.true_and, not_true_eq_false, if_false]
    cases hp : f.parsed with
    | none => simp
    | some data =>
      cases ha : deps.applyPoseFn with
      | none =>
        cases hs : deps.saveToGallery with
        | none => simp
        | some g =>
          cases hg : g (stripJsonExt f.name) with
          | ok u => simp [hg, Except.toBool]
          | error e => simp [hg, Except.toBool]
      | some g =>
        cases hg : g data with
        | ok u =>
          cases hs : deps.saveToGallery with
          | none => simp [hg, Except.toBool]
          | some g2 =>
            cases hg2 : g2 (stripJsonExt f.name) with
            | ok u2 => simp [hg, hg2, Except.toBool]
            | error e2 => simp [hg, hg2, Except.toBool]
        | error e => simp [hg, Except.toBool]
  · simp [hj]

theorem import_fold_fst (deps : ImportDeps) : ∀ (files : List PoseFile) (acc : Nat × List String),
    (files.foldl (importFileStep deps) acc).1 =
      acc.1 + files.countP (fun f => fileImports deps f) := by
  intro files
  induction files with
  | nil => intro acc; simp
  | cons f rest ih =>
    intro acc
    rw [List.foldl_cons, ih, List.countP_cons, importFileStep_fst]
    by_cases h : fileImports deps f = true
    · simp only [h, if_true]
      omega
    · simp only [h, if_false]
      omega

/-- A pose document with empty content, used for concrete inputs. -/
def emptyPoseDoc : PoseDoc :=
  { version := some 1, notes := some "", joints := some [], props := some [],
    savedAt := some "" }

/-- Import dependencies whose apply and save callbacks always succeed and
whose toast hook is present. -/
def importDepsOkToast : ImportDeps :=
  { applyPoseFn := some (fun _ => Except.ok ())
    saveToGallery := some (fun _ => Except.ok ())
    showToast := true }

/-- C9 counterexample: on an empty file list, importPosePack returns bare
(undefined, not a count) and emits no summary notification, contradicting
the claim for that input. -/
theorem import_empty_counterexample :
    (importPosePack [] importDepsOkToast).returned = none ∧
    (importPosePack [] importDepsOkToast).toasts = [] :=
  ⟨rfl, rfl⟩

/-- C9 (amended): for every non-empty list of files, files whose names do
not end in .json case-insensitively are skipped, a per-file parse or apply
failure does not abort the remaining files, the returned value is the
count of files that imported successfully, and exactly one summary
notification fires after the loop; an empty list returns undefined with no
notification. -/
theorem importPosePack_summary (files : List PoseFile) (deps : ImportDeps)
    (hne : files ≠ []) (ht : deps.showToast = true) :
    (importPosePack files deps).returned =
      some (files.countP (fun f => fileImports deps f)) ∧
    (importPosePack files deps).toasts.length = 1 := by
  unfold importPosePack
  have hlen : ¬ files.length = 0 := by simpa using hne
  simp only [hlen, if_false]
  constructor
  · show some ((files.foldl (importFileStep deps) (0, [])).1) = _
    rw [import_fold_fst]
    simp
  · rw [ht]
    by_cases h : (files.foldl (importFileStep deps) (0, [])).1 > 0 <;> simp [h]

/-- Two well-formed pose files around one malformed file (Scenario C). -/
def importFilesABC : List PoseFile :=
  [ { name := "a.json", parsed := some (some emptyPoseDoc) },
    { name := "bad.json", parsed := none },
    { name := "c.JSON", parsed := some (some emptyPoseDoc) } ]

/-- Witness for the C9 theorem: two valid pose files plus one malformed
one import with count 2 and a single summary toast. -/
theorem importPosePack_summary_witness :
    importFilesABC ≠ [] ∧
    (importPosePack importFilesABC importDepsOkToast).returned =
      some (importFilesABC.countP (fun f => fileImports importDepsOkToast f)) ∧
    (importPosePack importFilesABC importDepsOkToast).toasts.length = 1 ∧
    importFilesABC.countP (fun f => fileImports importDepsOkToast f) = 2 :=
  ⟨by decide,
    (importPosePack_summary importFilesABC importDepsOkToast (by decide) rfl).1,
    (importPosePack_summary importFilesABC importDepsOkToast (by decide) rfl).2,
    by decide⟩

theorem rebuild_preserves_joints (a : Option (Nat → String → PropNode)) :
    ∀ (entries : List PropEntry) (ws : World × Scene),
    ((entries.foldl (rebuildPropStep a) ws).1).joints = ws.1.joints := by
  intro entries
  induction entries with
  | nil => intro ws; rfl
  | cons pd rest ih =>
    intro ws
    rw [List.foldl_cons, ih]
    unfold rebuildPropStep
    cases a with
    | none => rfl
    | some f => rfl

theorem applyPose_joints_eq (d : PoseDoc) (m : JMap) (world : World) (scene : Scene)
    (deps : ApplyDeps) (hj : d.joints = some m) :
    ∃ r, applyPose (some d) world scene deps = Except.ok r ∧
      r.world.joints = world.joints.map (applyJointEntry m) := by
  unfold applyPose
  simp only [hj]
  cases hp : d.props with
  | none => exact ⟨_, rfl, rfl⟩
  | some entries =>
    refine ⟨_, rfl, ?_⟩
    exact rebuild_preserves_joints deps.addProp entries _

theorem applyJointEntry_matched (m : JMap) (j : Joint) (q : List JNum)
    (h1 : jget m j.name = some (JVal.arr q)) (h2 : q.length = 4) :
    applyJointEntry m j = { j with quaternion := Quat4.fromArray q } := by
  unfold applyJointEntry
  rw [h1]
  simp [h2]

theorem applyJointEntry_unmatched (m : JMap) (j : Joint)
    (h : jointMatches m j = false) :
    applyJointEntry m j = j := by
  unfold applyJointEntry
  unfold jointMatches at h
  cases hg : jget m j.name with
  | none => rfl
  | some v =>
    cases v with
    | other => rfl
    | arr q =>
      rw [hg] at h
      have hne : ¬ q.length = 4 := by simpa using h
      simp [hne]

/-- C2: with a joints map present, full-pose applyPose succeeds, preserves
the joint count, writes a joint quaternion exactly when the map binds the
joint name to a length-4 array (unknown names in the map are ignored), and
leaves every joint without such a binding entirely unchanged. -/
theorem applyPose_partial_joint_semantics (d : PoseDoc) (m : JMap) (world : World)
    (scene : Scene) (deps : ApplyDeps) (hj : d.joints = some m) :
    ∃ r, applyPose (some d) world scene deps = Except.ok r ∧
      r.world.joints.length = world.joints.length ∧
      ∀ (i : Nat) (j : Joint), world.joints.get? i = some j →
        (∀ q : List JNum,
          jget m j.name = some (JVal.arr q) → q.length = 4 →
            r.world.joints.get? i = some { j with quaternion := Quat4.fromArray q }) ∧
        (jointMatches m j = false → r.world.joints.get? i = some j) := by
  obtain ⟨r, hr, hjoints⟩ := applyPose_joints_eq d m world scene deps hj
  refine ⟨r, hr, by rw [hjoints, List.length_map], ?_⟩
  intro i j hij
  have hmap : r.world.joints.get? i = some (applyJointEntry m j) := by
    rw [hjoints, List.get?_map, hij]
    rfl
  constructor
  · intro q h1 h2
    rw [hmap, applyJointEntry_matched m j q h1 h2]
  · intro h
    rw [hmap, applyJointEntry_unmatched m j h]

/-- Concrete world for the C2 witness. -/
def worldC2 : World :=
  { joints := [{ name := "neck", quaternion := { x := some 1, y := some 0, z := some 0, w := some 0 } }]
    props := [] }

/-- Concrete joints map for the C2 witness: one matching binding and one
binding under a name the world does not have. -/
def mapC2 : JMap :=
  [("neck", JVal.arr [some 0, some 0, some 0, some 1]), ("ghost", JVal.arr [some 1, some 0, some 0, some 0])]

/-- Concrete pose document for the C2 witness. -/
def docC2 : PoseDoc :=
  { version := some 1, notes := none, joints := some mapC2, props := none, savedAt := none }

/-- Witness for the C2 theorem at a concrete document and world. -/
theorem applyPose_partial_joint_semantics_witness :
    ∃ r, applyPose (some docC2) worldC2 [] { poseNotes := none, addProp := none, showToast := false } = Except.ok r ∧
      r.world.joints.length = worldC2.joints.length ∧
      ∀ (i : Nat) (j : Joint), worldC2.joints.get? i = some j →
        (∀ q : List JNum,
          jget mapC2 j.name = some (JVal.arr q) → q.length = 4 →
            r.world.joints.get? i = some { j with quaternion := Quat4.fromArray q }) ∧
        (jointMatches mapC2 j = false → r.world.joints.get? i = some j) :=
  applyPose_partial_joint_semantics docC2 mapC2 worldC2 []
    { poseNotes := none, addProp := none, showToast := false } rfl

/-- C3: with the reset dependency wired (as the application always wires
it), applyPoseJointsOnly succeeds on a document with a joints map, returns
the count of matched joints, preserves the joint count, and leaves every
joint whose name is absent from the map at identity rotation. -/
theorem applyPoseJointsOnly_reset_count (d : PoseDoc) (m : JMap) (world : World)
    (deps : JointsOnlyDeps) (hj : d.joints = some m) (hr : deps.reset = true) :
    ∃ r, applyPoseJointsOnly (some d) world deps = Except.ok r ∧
      r.appliedCount = world.joints.countP (fun j => jointMatches m j) ∧
      r.world.joints.length = world.joints.length ∧
      ∀ (i : Nat) (j : Joint), world.joints.get? i = some j →
        jget m j.name = none →
          r.world.joints.get? i = some { j with quaternion := Quat4.identity } := by
  unfold applyPoseJointsOnly
  simp only [hj, hr, if_true]
  refine ⟨_, rfl, ?_, ?_, ?_⟩
  · show (resetAllJointRotations world).joints.countP _ = _
    unfold resetAllJointRotations
    rw [List.countP_map]
    rfl
  · show ((resetAllJointRotations world).joints.map (applyJointEntry m)).length = _
    unfold resetAllJointRotations
    simp
  · intro i j hij habsent
    show ((resetAllJointRotations world).joints.map (applyJointEntry m)).get? i = _
    unfold resetAllJointRotations
    simp only [List.get?_map, hij, Option.map_some']
    have hname : ({ j with quaternion := Quat4.identity } : Joint).name = j.name := rfl
    have happ : applyJointEntry m { j with quaternion := Quat4.identity } =
        { j with quaternion := Quat4.identity } := by
      unfold applyJointEntry
      rw [hname, habsent]
    rw [happ]

/-- Concrete world for the C3 witness: two joints, one matched by the
document, one absent and previously rotated. -/
def worldC3 : World :=
  { joints :=
      [{ name := "neck", quaternion := { x := some 0, y := some 0, z := some 0, w := some 1 } },
       { name := "chest", quaternion := { x := some 1, y := some 0, z := some 0, w := some 0 } }]
    props := [] }

/-- Concrete pose document for the C3 witness. -/
def docC3 : PoseDoc :=
  { version := some 1, notes := none,
    joints := some [("neck", JVal.arr [some 0, some 1, some 0, some 0])],
    props := none, savedAt := none }

/-- Witness for the C3 theorem at a concrete document and world. -/
theorem applyPoseJointsOnly_reset_count_witness :
    ∃ r, applyPoseJointsOnly (some docC3) worldC3 { reset := true, showToast := true } = Except.ok r ∧
      r.appliedCount = worldC3.joints.countP
        (fun j => jointMatches [("neck", JVal.arr [some 0, some 1, some 0, some 0])] j) ∧
      r.world.joints.length = worldC3.joints.length ∧
      ∀ (i : Nat) (j : Joint), worldC3.joints.get? i = some j →
        jget [("neck", JVal.arr [some 0, some 1, some 0, some 0])] j.name = none →
          r.world.joints.get? i = some { j with quaternion := Quat4.identity } :=
  applyPoseJointsOnly_reset_count docC3 [("neck", JVal.arr [some 0, some 1, some 0, some 0])]
    worldC3 { reset := true, showToast := true } rfl rfl

theorem rebuild_none_id : ∀ (entries : List PropEntry) (ws : World × Scene),
    entries.foldl (rebuildPropStep none) ws = ws := by
  intro entries
  induction entries with
  | nil => intro ws; rfl
  | cons pd rest ih =>
    intro ws
    rw [List.foldl_cons]
    exact ih ws

theorem count_scene_removal (u : Nat) (props : List PropNode) (s : Scene) :
    (props.foldl (fun t p => sceneRemove t p.uid) s).count u =
      s.count u - (props.map (fun p => p.uid)).count u := by
  have h : props.foldl (fun t p => sceneRemove t p.uid) s =
      (props.map (fun p => p.uid)).foldl (fun t a => t.erase a) s := by
    rw [List.foldl_map]
    rfl
  rw [h, count_foldl_erase]

/-- C10: on a document with a props array but no usable addProp dependency
(and no toast hook), applyPose completes without error or notification,
empties world.props, recreates nothing, and detaches every previously
attached prop from the scene — the destructive removal is not atomic with
the rebuild. -/
theorem applyPose_missing_addProp (d : PoseDoc) (entries : List PropEntry) (world : World)
    (scene : Scene) (deps : ApplyDeps) (hp : d.props = some entries)
    (ha : deps.addProp = none) (ht : deps.showToast = false) :
    ∃ r, applyPose (some d) world scene deps = Except.ok r ∧
      r.world.props = [] ∧ r.toasts = [] ∧
      ∀ p ∈ world.props,
        scene.count p.uid ≤ (world.props.map (fun q => q.uid)).count p.uid →
          p.uid ∉ r.scene := by
  unfold applyPose
  simp only [hp, ha, ht]
  rw [rebuild_none_id]
  refine ⟨_, rfl, rfl, by simp, ?_⟩
  intro p hmem hcount
  show p.uid ∉ world.props.foldl (fun t q => sceneRemove t q.uid) scene
  rw [← List.count_eq_zero, count_scene_removal]
  exact Nat.sub_eq_zero_of_le hcount

/-- Concrete world for the C10 witness: one prop, attached to the scene. -/
def worldC10 : World :=
  { joints := []
    props := [{ uid := 7, name := "prop_cube_1", type := "cube"
                position := { x := some 0, y := some 0, z := some 0 }
                quaternion := Quat4.identity
                scale := { x := some 1, y := some 1, z := some 1 } }] }

/-- Concrete pose document for the C10 witness: one serialized prop. -/
def docC10 : PoseDoc :=
  { version := some 1, notes := none, joints := none,
    props := some [{ name := some "prop_cube_1",
                     position := some [some 1, some 2, some 3],
                     quaternion := some [some 0, some 0, some 0, some 1],
                     scale := some [some 1, some 1, some 1] }],
    savedAt := none }

/-- Witness for the C10 theorem at a concrete document, world, and scene. -/
theorem applyPose_missing_addProp_witness :
    ∃ r, applyPose (some docC10) worldC10 [7]
        { poseNotes := none, addProp := none, showToast := false } = Except.ok r ∧
      r.world.props = [] ∧ r.toasts = [] ∧
      ∀ p ∈ worldC10.props,
        List.count p.uid [7] ≤ (worldC10.props.map (fun q => q.uid)).count p.uid →
          p.uid ∉ r.scene :=
  applyPose_missing_addProp docC10
    [{ name := some "prop_cube_1",
       position := some [some 1, some 2, some 3],
       quaternion := some [some 0, some 0, some 0, some 1],
       scale := some [some 1, some 1, some 1] }]
    worldC10 [7] { poseNotes := none, addProp := none, showToast := false } rfl rfl rfl

theorem quat_fromArray_toArray (q : Quat4) : Quat4.fromArray q.toArray = q := rfl

theorem vec3_fromArray_toArray (v : Vec3) : Vec3.fromArray v.toArray = v := rfl

theorem jget_jset_self (k : String) (v : JVal) : ∀ m : JMap, jget (jset m k v) k = some v := by
  intro m
  induction m with
  | nil => simp [jset, jget, List.find?]
  | cons p rest ih =>
    unfold jset
    by_cases h : p.1 = k
    · rw [if_pos h]
      simp [jget, List.find?]
    · rw [if_neg h]
      unfold jget
      rw [List.find?_cons_of_neg _ (by simpa using h)]
      exact ih

theorem jget_jset_ne (k k2 : String) (v : JVal) (hne : k2 ≠ k) :
    ∀ m : JMap, jget (jset m k v) k2 = jget m k2 := by
  intro m
  induction m with
  | nil =>
    show jget [(k, v)] k2 = jget [] k2
    unfold jget
    rw [List.find?_cons_of_neg _ (by simpa using fun h => hne h.symm)]
  | cons p rest ih =>
    unfold jset
    by_cases h : p.1 = k
    · rw [if_pos h]
      unfold jget
      rw [List.find?_cons_of_neg _ (by simpa using fun hh => hne hh.symm),
        List.find?_cons_of_neg _ (by simp only [beq_iff_eq, h]; exact fun hh => hne hh.symm)]
    · rw [if_neg h]
      unfold jget
      by_cases h2 : p.1 = k2
      · rw [List.find?_cons_of_pos _ (by simpa using h2),
          List.find?_cons_of_pos _ (by simpa using h2)]
      · rw [List.find?_cons_of_neg _ (by simpa using h2),
          List.find?_cons_of_neg _ (by simpa using h2)]
        exact ih

theorem serfold_pres (k : String) :
    ∀ (js : List Joint) (m : JMap), (∀ j ∈ js, j.name ≠ k) →
    jget (js.foldl (fun m j => jset m j.name (JVal.arr j.quaternion.toArray)) m) k =
      jget m k := by
  intro js
  induction js with
  | nil => intro m _; rfl
  | cons a rest ih =>
    intro m hna
    rw [List.foldl_cons, ih _ (fun j hj => hna j (List.mem_cons_of_mem a hj))]
    exact jget_jset_ne a.name k _ (fun h => hna a (List.mem_cons_self a rest) h.symm) m

theorem serfold_lookup : ∀ (js : List Joint),
    js.Pairwise (fun a b => a.name ≠ b.name) →
    ∀ j ∈ js, ∀ m : JMap,
    jget (js.foldl (fun m j => jset m j.name (JVal.arr j.quaternion.toArray)) m) j.name =
      some (JVal.arr j.quaternion.toArray) := by
  intro js
  induction js with
  | nil => intro _ j hj; cases hj
  | cons a rest ih =>
    intro hpw j hj m
    rw [List.foldl_cons]
    rcases List.mem_cons.mp hj with rfl | hmem
    · rw [serfold_pres j.name rest _
        (fun b hb => fun h => ((List.pairwise_cons.mp hpw).1 b hb) h.symm)]
      exact jget_jset_self j.name _ m
    · exact ih (List.pairwise_cons.mp hpw).2 j hmem _

theorem applyJointEntry_roundtrip (js : List Joint)
    (hpw : js.Pairwise (fun a b => a.name ≠ b.name)) (j : Joint) (hj : j ∈ js) :
    applyJointEntry (serializeJointsMap js) j = j := by
  have hlook : jget (serializeJointsMap js) j.name = some (JVal.arr j.quaternion.toArray) :=
    serfold_lookup js hpw j hj []
  rw [applyJointEntry_matched _ j _ hlook rfl, quat_fromArray_toArray]

theorem overwriteProp_ser (p : PropNode) (p0 : PropNode) :
    (overwriteProp (serializePropEntry p) p0).position = p.position ∧
    (overwriteProp (serializePropEntry p) p0).quaternion = p.quaternion ∧
    (overwriteProp (serializePropEntry p) p0).scale = p.scale := by
  unfold overwriteProp serializePropEntry
  by_cases h : p.name = "" <;>
    simp [h, vec3_fromArray_toArray, quat_fromArray_toArray]

theorem rebuiltProps_ser (f : Nat → String → PropNode) :
    ∀ (props : List PropNode) (i : Nat),
    (rebuiltProps f i (props.map serializePropEntry)).length = props.length ∧
    (rebuiltProps f i (props.map serializePropEntry)).map (fun p => p.position) =
      props.map (fun p => p.position) ∧
    (rebuiltProps f i (props.map serializePropEntry)).map (fun p => p.quaternion) =
      props.map (fun p => p.quaternion) ∧
    (rebuiltProps f i (props.map serializePropEntry)).map (fun p => p.scale) =
      props.map (fun p => p.scale) := by
  intro props
  induction props with
  | nil => intro i; exact ⟨rfl, rfl, rfl, rfl⟩
  | cons p rest ih =>
    intro i
    obtain ⟨h1, h2, h3⟩ := overwriteProp_ser p
      (f i (if nameSaysCube (((serializePropEntry p).name.getD "")) then "cube" else "sphere"))
    obtain ⟨ihl, ihp, ihq, ihs⟩ := ih (i + 1)
    refine ⟨?_, ?_, ?_, ?_⟩
    · show (rebuiltProps f i (serializePropEntry p :: rest.map serializePropEntry)).length = _
      unfold rebuiltProps
      simpa using ihl
    · show (rebuiltProps f i (serializePropEntry p :: rest.map serializePropEntry)).map _ = _
      unfold rebuiltProps
      simp only [List.map_cons, h1, ihp]
    · show (rebuiltProps f i (serializePropEntry p :: rest.map serializePropEntry)).map _ = _
      unfold rebuiltProps
      simp only [List.map_cons, h2, ihq]
    · show (rebuiltProps f i (serializePropEntry p :: rest.map serializePropEntry)).map _ = _
      unfold rebuiltProps
      simp only [List.map_cons, h3, ihs]

theorem rebuiltProps_cons (f : Nat → String → PropNode) (i : Nat) (pd : PropEntry)
    (rest : List PropEntry) :
    rebuiltProps f i (pd :: rest) =
      overwriteProp pd (f i (if nameSaysCube (pd.name.getD "") then "cube" else "sphere")) ::
        rebuiltProps f (i + 1) rest := rfl

theorem rebuild_fold_props (f : Nat → String → PropNode) :
    ∀ (entries : List PropEntry) (ws : World × Scene),
    ((entries.foldl (rebuildPropStep (some f)) ws).1).props =
      ws.1.props ++ rebuiltProps f ws.1.props.length entries := by
  intro entries
  induction entries with
  | nil => intro ws; simp [rebuiltProps]
  | cons pd rest ih =>
    intro ws
    rw [List.foldl_cons]
    show ((rest.foldl (rebuildPropStep (some f)) (rebuildPropStep (some f) ws pd)).1).props = _
    rw [ih, rebuiltProps_cons]
    unfold rebuildPropStep
    simp [List.append_assoc]

theorem applyPose_shape (d : PoseDoc) (m : JMap) (entries : List PropEntry)
    (world : World) (scene : Scene) (poseNotes : Option String)
    (f : Nat → String → PropNode) (toast : Bool)
    (hj : d.joints = some m) (hp : d.props = some entries) :
    ∃ r, applyPose (some d) world scene
        { poseNotes := poseNotes, addProp := some f, showToast := toast } = Except.ok r ∧
      r.world.joints = world.joints.map (applyJointEntry m) ∧
      r.world.props = rebuiltProps f 0 entries := by
  unfold applyPose
  simp only [hj, hp]
  refine ⟨_, rfl, rebuild_preserves_joints _ entries _, ?_⟩
  rw [rebuild_fold_props]
  rfl

/-- C1 counterexample: a world with two joints sharing one name (allowed by
the data model, which does not enforce unique names) does not round-trip —
serialization keeps only the last binding for the shared name, and applying
it rewrites the first joint with the second joint quaternion. -/
theorem roundtrip_counterexample :
    Option.map (fun r => r.world.joints.map (fun j => j.quaternion))
      (Except.toOption (applyPose
        (some (serializePose
          { joints :=
              [{ name := "a", quaternion := { x := some 1, y := some 0, z := some 0, w := some 0 } },
               { name := "a", quaternion := Quat4.identity }]
            props := [] } none "t"))
        { joints :=
            [{ name := "a", quaternion := { x := some 1, y := some 0, z := some 0, w := some 0 } },
             { name := "a", quaternion := Quat4.identity }]
          props := [] }
        [] { poseNotes := none, addProp := none, showToast := false }))
      ≠ some
        [{ x := some 1, y := some 0, z := some 0, w := some 0 }, Quat4.identity] := by
  decide

/-- C1 (amended): for every world whose joint names are pairwise distinct
(they are unique by convention but not enforced), applying the serialized
pose of that world with the full dependency set injected leaves every joint
quaternion and every prop position, quaternion, and scale exactly
unchanged. -/
theorem serialize_apply_roundtrip (world : World) (scene : Scene)
    (poseNotes : Option String) (now : String) (f : Nat → String → PropNode)
    (toast : Bool)
    (hnames : world.joints.Pairwise (fun a b => a.name ≠ b.name)) :
    ∃ r, applyPose (some (serializePose world poseNotes now)) world scene
        { poseNotes := poseNotes, addProp := some f, showToast := toast } = Except.ok r ∧
      r.world.joints.map (fun j => j.quaternion) = world.joints.map (fun j => j.quaternion) ∧
      r.world.props.length = world.props.length ∧
      r.world.props.map (fun p => p.position) = world.props.map (fun p => p.position) ∧
      r.world.props.map (fun p => p.quaternion) = world.props.map (fun p => p.quaternion) ∧
      r.world.props.map (fun p => p.scale) = world.props.map (fun p => p.scale) := by
  obtain ⟨r, hr, hjs, hps⟩ := applyPose_shape (serializePose world poseNotes now)
    (serializeJointsMap world.joints) (world.props.map serializePropEntry)
    world scene poseNotes f toast rfl rfl
  obtain ⟨hl, hpos, hquat, hscale⟩ := rebuiltProps_ser f world.props 0
  have hjfix : world.joints.map (applyJointEntry (serializeJointsMap world.joints)) =
      world.joints := by
    conv_rhs => rw [← List.map_id world.joints]
    exact List.map_congr_left
      (fun j hj => applyJointEntry_roundtrip world.joints hnames j hj)
  refine ⟨r, hr, ?_, ?_, ?_, ?_, ?_⟩
  · rw [hjs, hjfix]
  · rw [hps, hl]
  · rw [hps, hpos]
  · rw [hps, hquat]
  · rw [hps, hscale]

/-- Concrete world for the C1 witness: one rotated joint and one prop with
a non-trivial transform. -/
def worldC1 : World :=
  { joints := [{ name := "neck", quaternion := { x := some (1/2), y := some 0, z := some 0, w := some (1/2) } }]
    props := [{ uid := 3, name := "prop_sphere_1", type := "sphere"
                position := { x := some 1, y := some 2, z := some 3 }
                quaternion := { x := some 0, y := some 1, z := some 0, w := some 0 }
                scale := { x := some 2, y := some 2, z := some 2 } }] }

/-- The spawn dependency used by the C1 witness: a fresh default group of
the requested type, as spawnProp produces before overwriting. -/
def spawnC1 (i : Nat) (t : String) : PropNode :=
  { uid := 100 + i, name := "prop_" ++ t, type := t
    position := { x := some 0, y := some 0, z := some 0 }
    quaternion := Quat4.identity
    scale := { x := some 1, y := some 1, z := some 1 } }

/-- Witness for the C1 theorem at a concrete world. -/
theorem serialize_apply_roundtrip_witness :
    ∃ r, applyPose (some (serializePose worldC1 none "now")) worldC1 [3]
        { poseNotes := none, addProp := some spawnC1, showToast := true } = Except.ok r ∧
      r.world.joints.map (fun j => j.quaternion) = worldC1.joints.map (fun j => j.quaternion) ∧
      r.world.props.length = worldC1.props.length ∧
      r.world.props.map (fun p => p.position) = worldC1.props.map (fun p => p.position) ∧
      r.world.props.map (fun p => p.quaternion) = worldC1.props.map (fun p => p.quaternion) ∧
      r.world.props.map (fun p => p.scale) = worldC1.props.map (fun p => p.scale) :=
  serialize_apply_roundtrip worldC1 [3] none "now" spawnC1 true (by decide)

/-- The state facts that hold over every gallery run: bounded, ordered
items with timestamps below the clock, and a storage blob that is itself a
persisted bounded ordered list. -/
def ginv (st : GalleryState) : Prop :=
  st.items.length ≤ galleryMax ∧ newestFirst st.items ∧
  (∀ it ∈ st.items, it.createdAt.getD 0 < st.clock) ∧
  ∃ ls : List RawItem, st.storage = ls.map some ∧
    ls.length ≤ galleryMax ∧ newestFirst ls ∧
    (∀ it ∈ ls, it.createdAt.getD 0 < st.clock)

theorem ensureSelectionValid_parts (st : GalleryState) :
    (ensureSelectionValid st).items = st.items ∧
    (ensureSelectionValid st).storage = st.storage ∧
    (ensureSelectionValid st).clock = st.clock := by
  unfold ensureSelectionValid
  cases hsel : st.selectedId with
  | none => exact ⟨rfl, rfl, rfl⟩
  | some sel =>
    by_cases h : st.items.any (fun it => it.id == some sel) = true
    · simp [h]
    · simp [h]

theorem loadItems_length (raw : List (Option RawItem)) :
    (loadItems raw).length ≤ galleryMax :=
  List.length_take_le galleryMax _

theorem loadItems_valid (raw : List (Option RawItem)) :
    ∀ it ∈ loadItems raw, rawTruthy it = true := by
  intro it hit
  unfold loadItems at hit
  exact List.of_mem_filter (List.mem_of_mem_take hit)

theorem loadItems_map_some (ls : List RawItem) :
    loadItems (ls.map some) = (ls.filter rawTruthy).take galleryMax := by
  unfold loadItems
  rw [List.filterMap_map]
  have hfm : ls.filterMap (id ∘ some) = ls := by
    have : (id ∘ some : RawItem → Option RawItem) = some := rfl
    rw [this, List.filterMap_some]
  rw [hfm]

theorem newestFirst_take (l : List RawItem) (n : Nat) (h : newestFirst l) :
    newestFirst (l.take n) :=
  h.sublist (List.take_sublist n l)

theorem newestFirst_filter (l : List RawItem) (p : RawItem → Bool) (h : newestFirst l) :
    newestFirst (l.filter p) :=
  h.sublist (List.filter_sublist l)

theorem ginv_save (cfg : GalleryCfg) (st : GalleryState) (name thumb : String)
    (storeOk : Bool) (h : ginv st) : ginv (gallerySave cfg st name thumb storeOk) := by
  obtain ⟨hlen, hord, hclk, ls, hst, hlslen, hlsord, hlsclk⟩ := h
  unfold gallerySave
  by_cases h1 : cfg.hasSerialize = true
  case neg => simp only [h1, Bool.false_eq_true, not_false_eq_true, if_true]
              exact ⟨hlen, hord, hclk, ls, hst, hlslen, hlsord, hlsclk⟩
  case pos =>
  simp only [h1, not_true_eq_false, if_false]
  by_cases h2 : cfg.hasCapture = true
  case neg => simp only [h2, Bool.false_eq_true, not_false_eq_true, if_true]
              exact ⟨hlen, hord, hclk, ls, hst, hlslen, hlsord, hlsclk⟩
  case pos =>
  simp only [h2, not_true_eq_false, if_false]
  by_cases h3 : thumb = ""
  case pos => simp only [h3, if_pos rfl]
              exact ⟨hlen, hord, hclk, ls, hst, hlslen, hlsord, hlsclk⟩
  case neg =>
  rw [if_neg h3]
  set item : RawItem :=
    { id := some ("id_" ++ toString st.clock)
      name := some (if jsTrim name ≠ "" then jsTrim name
        else "Pose " ++ toString (st.items.length + 1))
      createdAt := some st.clock
      notes := some (cfg.notes.getD "")
      pose := some cfg.currentPose
      thumb := some thumb } with hitem
  have hord2 : newestFirst ((item :: st.items).take galleryMax) := by
    apply newestFirst_take
    apply List.pairwise_cons.mpr
    refine ⟨fun b hb => ?_, hord⟩
    have := hclk b hb
    simp only [hitem, Option.getD_some]
    omega
  have hclk2 : ∀ it ∈ (item :: st.items).take galleryMax,
      it.createdAt.getD 0 < st.clock + 1 := by
    intro it hit
    rcases List.mem_cons.mp (List.mem_of_mem_take hit) with rfl | hmem
    · simp [hitem]
    · have := hclk it hmem
      omega
  refine ⟨List.length_take_le _ _, hord2, hclk2, ?_⟩
  by_cases hs : storeOk = true
  · rw [if_pos hs]
    exact ⟨(item :: st.items).take galleryMax, rfl, List.length_take_le _ _, hord2, hclk2⟩
  · rw [if_neg hs]
    refine ⟨ls, hst, hlslen, hlsord, fun it hit => ?_⟩
    show it.createdAt.getD 0 < st.clock + 1
    have := hlsclk it hit
    omega

theorem ginv_load (st : GalleryState) (h : ginv st) : ginv (galleryLoad st) := by
  obtain ⟨hlen, hord, hclk, ls, hst, hlslen, hlsord, hlsclk⟩ := h
  unfold galleryLoad
  obtain ⟨hi, hs, hc⟩ := ensureSelectionValid_parts
    { st with items := loadItems st.storage }
  rw [ginv, hi, hs, hc]
  have hli : loadItems st.storage = (ls.filter rawTruthy).take galleryMax := by
    rw [hst, loadItems_map_some]
  rw [hli]
  refine ⟨List.length_take_le _ _, newestFirst_take _ _ (newestFirst_filter _ _ hlsord),
    ?_, ls, hst, hlslen, hlsord, hlsclk⟩
  intro it hit
  exact hlsclk it (List.mem_of_mem_filter (List.mem_of_mem_take hit))

theorem ginv_run (cfg : GalleryCfg) (ops : List GalleryOp) : ginv (galleryRun cfg ops) := by
  have base : ginv galleryInit := by
    refine ⟨by simp [galleryInit, galleryMax], ?_, ?_, [], rfl, by simp [galleryMax], ?_, ?_⟩
    · exact List.Pairwise.nil
    · intro it hit; cases hit
    · exact List.Pairwise.nil
    · intro it hit; cases hit
  unfold galleryRun
  generalize galleryInit = st at base ⊢
  induction ops generalizing st with
  | nil => exact base
  | cons op rest ih =>
    rw [List.foldl_cons]
    apply ih
    cases op with
    | save name thumb storeOk => exact ginv_save cfg st name thumb storeOk base
    | load => exact ginv_load st base

/-- C7: over every sequence of saveCurrentPoseToGallery and loadFromStorage
calls, the gallery item list stays at most 30 long and ordered newest-first
by creation time (a successful save prepends and truncates), and
loadFromStorage keeps only items carrying id, pose, and thumb, truncated to
capacity, whatever the storage blob holds. -/
theorem gallery_capacity_order (cfg : GalleryCfg) (ops : List GalleryOp) :
    (galleryRun cfg ops).items.length ≤ galleryMax ∧
    newestFirst (galleryRun cfg ops).items ∧
    ∀ raw : List (Option RawItem),
      (loadItems raw).length ≤ galleryMax ∧
      ∀ it ∈ loadItems raw, rawTruthy it = true := by
  obtain ⟨h1, h2, _⟩ := ginv_run cfg ops
  exact ⟨h1, h2, fun raw => ⟨loadItems_length raw, loadItems_valid raw⟩⟩

/-- A valid stored item used by the C7 witness. -/
def validItemC7 : RawItem :=
  { id := some "x1", name := some "Pose 1", createdAt := some 5,
    notes := some "", pose := some emptyPoseDoc, thumb := some "data:png" }

/-- A storage blob holding one valid item, one null entry, and one item
with a missing thumbnail. -/
def rawC7 : List (Option RawItem) :=
  [some validItemC7, none,
   some { id := some "x2", name := some "Pose 2", createdAt := some 6,
          notes := some "", pose := some emptyPoseDoc, thumb := none }]

/-- Witness for the C7 theorem at a concrete run and a concrete storage
blob. -/
theorem gallery_capacity_order_witness :
    (galleryRun
        { hasSerialize := true, hasCapture := true, currentPose := emptyPoseDoc, notes := none }
        [GalleryOp.save "A" "thumb" true, GalleryOp.load]).items.length ≤ galleryMax ∧
    validItemC7 ∈ loadItems rawC7 ∧ rawTruthy validItemC7 = true :=
  ⟨(gallery_capacity_order
      { hasSerialize := true, hasCapture := true, currentPose := emptyPoseDoc, notes := none }
      [GalleryOp.save "A" "thumb" true, GalleryOp.load]).1,
   by decide,
   ((gallery_capacity_order
      { hasSerialize := true, hasCapture := true, currentPose := emptyPoseDoc, notes := none }
      [GalleryOp.save "A" "thumb" true, GalleryOp.load]).2.2 rawC7).2 validItemC7 (by decide)⟩

end PoseSandbox
